import Mathlib

/-!
Verification of the feature-extraction and dataset-preparation pipeline of
`src/mete/utils.py` (functions `find_extrema`, `build_features`,
`PolymerDataset._process_event`, `PolymerDataset.preprocess`).

Samples are (time, current) pairs modelled over `ℚ` (the Python code uses
floating-point numbers; the claims under study are structural, so exact
rational arithmetic is the faithful total model).  Feature values are `ℝ`
because `np.std` takes a square root.  The external peak detector
`scipy.signal.find_peaks_cwt` is an external collaborator and is modelled as
an explicit function parameter `find_peaks_cwt : List ℚ → ℚ → List ℕ`
returning indices into the signal.
-/

/-- A (time, current) sample of an event. -/
abbrev Sample : Type := ℚ × ℚ

/-- An event: an ordered sequence of (time, current) samples. -/
abbrev Event : Type := List Sample

/-- One iteration of the interior-index loop of `find_extrema`
(`src/mete/utils.py`, lines 14-23): at interior index `i`, the sample is a
candidate when `prev_change * next_change >= 0`, and an accepted candidate is
appended when its current differs from the last accepted extremum's current by
strictly more than `extrema_th`. -/
def extremaStep (event : Event) (extrema_th : ℚ) (acc : List Sample) (i : ℕ) :
    List Sample :=
  let cur := event.getD i (0, 0)
  let prev := event.getD (i - 1) (0, 0)
  let next := event.getD (i + 1) (0, 0)
  let prevChange := cur.2 - prev.2
  let nextChange := cur.2 - next.2
  if 0 ≤ prevChange * nextChange then
    if extrema_th < |cur.2 - (acc.getLastD (0, 0)).2| then acc ++ [cur]
    else acc
  else acc

/-- `find_extrema(event, extrema_th)` from `src/mete/utils.py` lines 10-27:
start with the first sample, scan interior indices `1 .. len(event)-2` with
`extremaStep`, and always append the last sample.  (Python raises `IndexError`
on an empty event; that unreachable case is modelled as `[]` — every caller in
the source guards `len(event) > 0`.) -/
def find_extrema (event : Event) (extrema_th : ℚ) : List Sample :=
  match event with
  | [] => []
  | e0 :: _ =>
    ((List.range' 1 (event.length - 2)).foldl (extremaStep event extrema_th) [e0])
      ++ [event.getLastD (0, 0)]

/-- The event refuting the threshold-monotonicity claim: its candidate currents
(all interior samples are plateau-edge candidates) are 25, 25, 40, 40, 6, 6. -/
def cexEvent : Event :=
  [(0, 0), (1, 25), (2, 25), (3, 40), (4, 40), (5, 6), (6, 6), (7, 0)]

/-- `np.mean`: arithmetic mean of a list of values (`np.mean` of an empty array
is NaN; the callers under study never take the mean of an empty list, see the
safety claim about `mean_extrema_diff`). -/
def npMean (l : List ℚ) : ℚ := l.sum / l.length

/-- `np.std`: population standard deviation,
`sqrt(mean((x - mean(x))**2))`. -/
noncomputable def npStd (l : List ℚ) : ℝ :=
  Real.sqrt ((npMean ((l.map (fun x => (x - npMean l) ^ 2)))) : ℝ)

/-- `np.max` of a nonempty array (the empty case raises in numpy and is
unreachable: `build_features` guards `len(event) > 0`). -/
def npMax (l : List ℚ) : ℚ :=
  match l with
  | [] => 0
  | x :: xs => xs.foldl max x

/-- `np.min` of a nonempty array (empty case unreachable, as for `npMax`). -/
def npMin (l : List ℚ) : ℚ :=
  match l with
  | [] => 0
  | x :: xs => xs.foldl min x

/-- `sorted(xs, reverse=True)`: sort currents in descending order. -/
def sortDesc (l : List ℚ) : List ℚ := l.insertionSort (· ≥ ·)

/-- `np.mean`/`np.std` applied to the 2-D extrema array flatten it: every time
and current value participates.  `flattenPairs` is that flattening. -/
def flattenPairs (l : List Sample) : List ℚ := l.flatMap (fun p => [p.1, p.2])

/-- The list `[extrema[i,1] - extrema[i-1,1] for i in range(1, len(extrema))]`
of consecutive current differences, composed with `np.abs`
(`src/mete/utils.py` line 89). -/
def extremaDiffs (l : List Sample) : List ℚ :=
  (l.zip l.tail).map (fun p => |p.2.2 - p.1.2|)

/-- The fixed 17-field feature record built by `build_features`
(`src/mete/utils.py` lines 59-77); field order is the Python dict insertion
order and is significant (it becomes tensor column order). -/
structure FeatureVector where
  num_signals : ℝ
  duration : ℝ
  max_current : ℝ
  min_current : ℝ
  mean_current : ℝ
  std_current : ℝ
  num_extrema : ℝ
  mean_extrema : ℝ
  std_extrema : ℝ
  mean_extrema_diff : ℝ
  num_peaks : ℝ
  mean_peaks : ℝ
  peak_1 : ℝ
  peak_2 : ℝ
  peak_3 : ℝ
  peak_4 : ℝ
  peak_5 : ℝ

/-- The all-zero feature record, i.e. the dict as initialised at the top of
`build_features` before any field is overwritten. -/
def zeroFeatures : FeatureVector :=
  ⟨0, 0, 0, 0, 0, 0, 0, 0, 0, 0, 0, 0, 0, 0, 0, 0, 0⟩

/-- `list(features.values())`: the 17 feature values in dict insertion order
(`src/mete/utils.py` line 129). -/
def FeatureVector.toList (f : FeatureVector) : List ℝ :=
  [f.num_signals, f.duration, f.max_current, f.min_current, f.mean_current,
   f.std_current, f.num_extrema, f.mean_extrema, f.std_extrema,
   f.mean_extrema_diff, f.num_peaks, f.mean_peaks, f.peak_1, f.peak_2,
   f.peak_3, f.peak_4, f.peak_5]

/-- `build_features(event, extrema_th)` from `src/mete/utils.py` lines 58-100.
The external `scipy.signal.find_peaks_cwt` collaborator is the parameter
`find_peaks_cwt`, returning peak indices into the current signal.  All fields
stay 0 when the window is empty (`if len(event) > 0`). -/
noncomputable def build_features (find_peaks_cwt : List ℚ → ℚ → List ℕ)
    (event : Event) (extrema_th : ℚ) : FeatureVector :=
  if 0 < event.length then
    let currents := event.map Prod.snd
    let duration := (event.getLastD (0, 0)).1
    let extrema := find_extrema event extrema_th
    let peaks_idx := find_peaks_cwt currents (max 1 duration)
    let peaks := sortDesc (peaks_idx.map (fun i => (event.getD i (0, 0)).2))
    { num_signals := event.length
      duration := duration
      max_current := npMax currents
      min_current := npMin currents
      mean_current := npMean currents
      std_current := npStd currents
      num_extrema := extrema.length
      mean_extrema := npMean (flattenPairs extrema)
      std_extrema := npStd (flattenPairs extrema)
      mean_extrema_diff := npMean (extremaDiffs extrema)
      num_peaks := peaks_idx.length
      mean_peaks := if 0 < peaks_idx.length then npMean peaks else 0
      peak_1 := if 0 < peaks_idx.length then (peaks.getD 0 0 : ℚ) else 0
      peak_2 := if 0 < peaks_idx.length then (peaks.getD 1 0 : ℚ) else 0
      peak_3 := if 0 < peaks_idx.length then (peaks.getD 2 0 : ℚ) else 0
      peak_4 := if 0 < peaks_idx.length then (peaks.getD 3 0 : ℚ) else 0
      peak_5 := if 0 < peaks_idx.length then (peaks.getD 4 0 : ℚ) else 0 }
  else zeroFeatures

/-- `int(np.ceil(a / b))` for natural `a`, `b` (used with `b > 0`; the
unreachable `b = 0` case, a `ZeroDivisionError` in Python, is modelled as 0). -/
def ceilDiv (a b : ℕ) : ℕ := (a + b - 1) / b

/-- Python's `x or y` on an optional integer: `y` when `x` is `None` or `0`
(both falsy), else the value of `x`. -/
def pyOr (x : Option ℕ) (y : ℕ) : ℕ :=
  match x with
  | none => y
  | some 0 => y
  | some (n + 1) => n + 1

/-- Python truthiness test `not x` for an optional integer: true exactly when
`x` is `None` or `0`. -/
def pyFalsy (x : Option ℕ) : Bool :=
  match x with
  | none => true
  | some 0 => true
  | some (_ + 1) => false

/-- `PolymerDataset._process_event(event, timesteps, stepsize, extrema_th)`
(`src/mete/utils.py` lines 124-131): resolve `stepsize` as
`stepsize or int(np.ceil(len(event) / timesteps))`, then build one
17-value feature row per window `event[i*stepsize:(i+1)*stepsize]` for
`i in range(timesteps)`. -/
noncomputable def process_event (find_peaks_cwt : List ℚ → ℚ → List ℕ)
    (event : Event) (timesteps : ℕ) (stepsize : Option ℕ) (extrema_th : ℚ) :
    List (List ℝ) :=
  let step := pyOr stepsize (ceilDiv event.length timesteps)
  (List.range timesteps).map (fun i =>
    (build_features find_peaks_cwt ((event.drop (i * step)).take step)
      extrema_th).toList)

/-- The duration filter of `PolymerDataset.preprocess`
(`src/mete/utils.py` lines 151-161): keep exactly the events with
`len(event) > min_event_len` and `len(event) < max_event_len`, where
`min_event_len = 50` and `max_event_len = 10000` are literal constants in the
method body (not parameters of `preprocess` or `__init__`, hence not
configurable by the caller). -/
def keepNormal (events : List Event) : List Event :=
  let minEventLen : ℕ := 50
  let maxEventLen : ℕ := 10000
  events.filter (fun e => decide (minEventLen < e.length ∧ e.length < maxEventLen))

/-- Python `min(...)` over a list of naturals; the caller (`preprocess`)
reaches it only with a nonempty list — `min()` of an empty sequence raises
`ValueError`, which `preprocess` models as an explicit error branch. -/
def pyMinList (l : List ℕ) : ℕ :=
  match l with
  | [] => 0
  | x :: xs => xs.foldl Nat.min x

/-- The balancing stage of `preprocess` (`src/mete/utils.py` lines 142-147):
for each class `c`, take the first `minSize` entries of a permutation of its
indices and select those events.  `perm c n` models the numpy permutation
`np.random.permutation(n)` drawn for class `c` from the generator seeded with
`np.random.seed(seed)` (an external collaborator). -/
def balanceClasses (perm : ℕ → ℕ → List ℕ) (raw : List (List Event))
    (minSize : ℕ) : List (List Event) :=
  raw.enum.map (fun p =>
    ((perm p.1 p.2.length).take minSize).map (fun j => p.2.getD j []))

/-- Errors raised by `PolymerDataset.preprocess`; in the Python source all
three are `ValueError`s: the explicit configuration check (line 137-138),
`min()` of an empty sequence (line 144, zero classes), and `np.max` of a
zero-size array (line 164, no events at all after filtering). -/
inductive PrepError where
  | configError
  | emptyCollections
  | emptyFiltered
deriving DecidableEq

/-- The labelled dataset produced by `preprocess`: one segmented event
(`[timesteps × 17]` row-list) per retained event, with the class index as
label. -/
structure Dataset where
  data : List (List (List ℝ))
  labels : List ℕ

/-- `PolymerDataset.preprocess(timesteps, stepsize, extrema_th, seed)`
(`src/mete/utils.py` lines 133-176).  `raw` is the list of per-class event
collections (`self.raw_data`); `perm` models the seeded numpy permutation
generator (see `balanceClasses`).  Stages, in source order: the
configuration guard, balancing, the duration filter (`keepNormal`),
resolution of `timesteps` from the maximum retained length, and per-event
segmentation via `process_event` with the class position as label. -/
noncomputable def preprocess (find_peaks_cwt : List ℚ → ℚ → List ℕ)
    (perm : ℕ → ℕ → List ℕ) (raw : List (List Event))
    (timesteps stepsize : Option ℕ) (extrema_th : ℚ) :
    Except PrepError Dataset :=
  if pyFalsy timesteps && pyFalsy stepsize then .error .configError
  else if raw.isEmpty then .error .emptyCollections
  else
    let minSize := pyMinList (raw.map List.length)
    let balanced := balanceClasses perm raw minSize
    let normal := balanced.map keepNormal
    if normal.flatten.isEmpty then .error .emptyFiltered
    else
      let maxEventLen := (normal.flatten.map List.length).foldl Nat.max 0
      let T := pyOr timesteps (ceilDiv maxEventLen (pyOr stepsize 0))
      let pairs := normal.enum.flatMap (fun p =>
        p.2.map (fun e =>
          (process_event find_peaks_cwt e T stepsize extrema_th, p.1)))
      .ok { data := pairs.map Prod.fst, labels := pairs.map Prod.snd }

/-- `build_features` on the empty window takes the `else` branch and returns
the initial all-zero dict. -/
theorem build_features_nil (f : List ℚ → ℚ → List ℕ) (th : ℚ) :
    build_features f [] th = zeroFeatures := rfl

/-- The 17 values of the all-zero feature record. -/
theorem zeroFeatures_toList : zeroFeatures.toList = List.replicate 17 (0 : ℝ) := rfl

/-- Every feature record serialises to exactly 17 values. -/
theorem featureVector_toList_length (f : FeatureVector) : f.toList.length = 17 := rfl

/-- Reading entry `i < T` of a map over `List.range T`. -/
theorem getD_map_range {α : Type} (g : ℕ → α) (T i : ℕ) (d : α) (h : i < T) :
    ((List.range T).map g).getD i d = g i := by
  rw [List.getD_eq_getElem?_getD]
  simp [List.getElem?_map, List.getElem?_range, h]

/-- C1: for every event and every positive `timesteps` value `T` (with
`stepsize` either supplied or computed as `ceil(len(event)/T)`),
`_process_event` returns a 2-D array of shape exactly `[T, 17]`; when the
event is shorter than `T * stepsize`, the trailing rows corresponding to
empty windows are all-zero rows. -/
theorem claim_C1_segment_shape (f : List ℚ → ℚ → List ℕ) (event : Event)
    (T : ℕ) (ss : Option ℕ) (th : ℚ) (_hT : 0 < T) :
    (process_event f event T ss th).length = T ∧
    (∀ row ∈ process_event f event T ss th, row.length = 17) ∧
    (∀ i, i < T → event.length ≤ i * pyOr ss (ceilDiv event.length T) →
      (process_event f event T ss th).getD i [] = List.replicate 17 (0 : ℝ)) := by
  refine ⟨by simp [process_event], ?_, ?_⟩
  · intro row hrow
    simp only [process_event, List.mem_map] at hrow
    obtain ⟨i, _, rfl⟩ := hrow
    exact featureVector_toList_length _
  · intro i hi hle
    have : process_event f event T ss th =
        (List.range T).map (fun i =>
          (build_features f
            ((event.drop (i * pyOr ss (ceilDiv event.length T))).take
              (pyOr ss (ceilDiv event.length T))) th).toList) := rfl
    rw [this, getD_map_range _ _ _ _ hi, List.drop_eq_nil_of_le hle,
      List.take_nil, build_features_nil, zeroFeatures_toList]

/-- Witness for C1 at the one-sample event, `T = 2`, no supplied stepsize. -/
theorem claim_C1_segment_shape_witness :
    0 < 2 ∧
    ((process_event (fun _ _ => []) [((0:ℚ), (0:ℚ))] 2 none 0).length = 2 ∧
    (∀ row ∈ process_event (fun _ _ => []) [((0:ℚ), (0:ℚ))] 2 none 0,
      row.length = 17) ∧
    (∀ i, i < 2 →
      ([((0:ℚ), (0:ℚ))] : Event).length ≤
        i * pyOr none (ceilDiv ([((0:ℚ), (0:ℚ))] : Event).length 2) →
      (process_event (fun _ _ => []) [((0:ℚ), (0:ℚ))] 2 none 0).getD i [] =
        List.replicate 17 (0 : ℝ))) :=
  ⟨by decide, claim_C1_segment_shape (fun _ _ => []) [((0:ℚ), (0:ℚ))] 2 none 0 (by decide)⟩

/-- C2: `build_features` on an empty window (zero samples) returns the
`FeatureVector` with all 17 fields equal to 0, for every threshold. -/
theorem claim_C2_empty_window (f : List ℚ → ℚ → List ℕ) (th : ℚ) :
    build_features f [] th = zeroFeatures ∧
    (build_features f [] th).toList = List.replicate 17 (0 : ℝ) := ⟨rfl, rfl⟩

/-- C6: `preprocess` fails with the configuration error when neither
`timesteps` nor `stepsize` is provided, for every input; the `Except.error`
result carries no dataset, so preparation aborts with nothing constructed. -/
theorem claim_C6_config_error (f : List ℚ → ℚ → List ℕ)
    (perm : ℕ → ℕ → List ℕ) (raw : List (List Event)) (th : ℚ) :
    preprocess f perm raw none none th = .error .configError := rfl

/-- C5: the duration filter of `preprocess` retains exactly the events whose
sample count is strictly greater than 50 and strictly less than 10000; in
particular an event of length exactly 50 or 10000 is dropped while lengths 51
and 9999 are retained.  (The thresholds are literal constants of the method
body; neither `preprocess` nor the constructor exposes them, cf. the signature
of `preprocess`.) -/
theorem claim_C5_duration_filter :
    (∀ (events : List Event) (e : Event),
      e ∈ keepNormal events ↔ e ∈ events ∧ 50 < e.length ∧ e.length < 10000) ∧
    keepNormal [List.replicate 50 ((0:ℚ), (0:ℚ))] = [] ∧
    keepNormal [List.replicate 51 ((0:ℚ), (0:ℚ))] =
      [List.replicate 51 ((0:ℚ), (0:ℚ))] ∧
    keepNormal [List.replicate 9999 ((0:ℚ), (0:ℚ))] =
      [List.replicate 9999 ((0:ℚ), (0:ℚ))] ∧
    keepNormal [List.replicate 10000 ((0:ℚ), (0:ℚ))] = [] := by
  refine ⟨?_, ?_, ?_, ?_, ?_⟩
  · intro events e
    simp [keepNormal, List.mem_filter, and_assoc]
  all_goals
    simp only [keepNormal, List.filter_singleton, List.length_replicate]
    norm_num

/-- Each loop iteration of `find_extrema` either keeps the accumulator or
appends the current interior sample at the end. -/
theorem extremaStep_append (event : Event) (th : ℚ) (acc : List Sample) (i : ℕ) :
    ∃ u, extremaStep event th acc i = acc ++ u := by
  dsimp only [extremaStep]
  split
  · split
    · exact ⟨_, rfl⟩
    · exact ⟨[], (List.append_nil acc).symm⟩
  · exact ⟨[], (List.append_nil acc).symm⟩

/-- Folding the `find_extrema` loop only ever extends the accumulator. -/
theorem foldl_extremaStep_append (event : Event) (th : ℚ) (js : List ℕ) :
    ∀ acc, ∃ t, js.foldl (extremaStep event th) acc = acc ++ t := by
  induction js with
  | nil => exact fun acc => ⟨[], (List.append_nil acc).symm⟩
  | cons j js ih =>
    intro acc
    obtain ⟨u, hu⟩ := extremaStep_append event th acc j
    obtain ⟨t, ht⟩ := ih (extremaStep event th acc j)
    exact ⟨u ++ t, by rw [List.foldl_cons, ht, hu, List.append_assoc]⟩

/-- `find_extrema` on a nonempty event is the first sample, then some interior
samples, then the last sample. -/
theorem find_extrema_structure (e0 : Sample) (rest : List Sample) (th : ℚ) :
    ∃ t, find_extrema (e0 :: rest) th =
      e0 :: (t ++ [(e0 :: rest).getLastD (0, 0)]) := by
  obtain ⟨t, ht⟩ := foldl_extremaStep_append (e0 :: rest) th
    (List.range' 1 ((e0 :: rest).length - 2)) [e0]
  exact ⟨t, by simp only [find_extrema, ht]; simp⟩

/-- Taking a longer prefix only extends the prefix (as a sublist). -/
theorem take_sublist_take {α : Type} (l : List α) {m n : ℕ} (h : m ≤ n) :
    List.Sublist (l.take m) (l.take n) := by
  rw [show l.take m = (l.take n).take m by rw [List.take_take, Nat.min_eq_left h]]
  exact List.take_sublist _ _

/-- A nonempty list's final element, as the singleton it drops to. -/
theorem drop_length_sub_one {α : Type} (d : α) :
    ∀ (l : List α), l ≠ [] → l.drop (l.length - 1) = [l.getLastD d] := by
  intro l
  induction l with
  | nil => intro h; exact absurd rfl h
  | cons x xs ih =>
    intro _
    cases xs with
    | nil => rfl
    | cons y t =>
      have : (x :: y :: t).length - 1 = (y :: t).length := rfl
      rw [this, show (y :: t).length = t.length + 1 from rfl]
      have hdrop : (x :: y :: t).drop (t.length + 1) = (y :: t).drop t.length := rfl
      rw [hdrop, show t.length = (y :: t).length - 1 from rfl, ih (by simp)]
      simp [List.getLastD_cons]

/-- Invariant of the `find_extrema` loop: folding over strictly increasing
interior indices below `N` keeps the accumulator a sublist of the first `N`
samples. -/
theorem foldl_extremaStep_sublist (event : Event) (th : ℚ) (N : ℕ)
    (hN : N ≤ event.length) :
    ∀ (js : List ℕ) (acc : List Sample) (m : ℕ),
      List.Sublist acc (event.take m) → js.Pairwise (· < ·) →
      (∀ j ∈ js, m ≤ j ∧ j < N) → m ≤ N →
      List.Sublist (js.foldl (extremaStep event th) acc) (event.take N) := by
  intro js
  induction js with
  | nil =>
    intro acc m hacc _ _ hmN
    exact hacc.trans (take_sublist_take event hmN)
  | cons j js ih =>
    intro acc m hacc hpw hbound hmN
    obtain ⟨hmj, hjN⟩ := hbound j (List.mem_cons_self j js)
    have hjlen : j < event.length := lt_of_lt_of_le hjN hN
    have hstep : List.Sublist (extremaStep event th acc j) (event.take (j + 1)) := by
      have htake : event.take (j + 1) = event.take j ++ [event[j]] := by
        rw [List.take_succ]; simp [List.getElem?_eq_getElem hjlen]
      have hgetD : event.getD j (0, 0) = event[j] := by
        rw [List.getD_eq_getElem?_getD, List.getElem?_eq_getElem hjlen]; rfl
      have hacc' : List.Sublist acc (event.take j) :=
        hacc.trans (take_sublist_take event hmj)
      obtain ⟨u, hu⟩ := extremaStep_append event th acc j
      dsimp only [extremaStep] at hu ⊢
      split
      · split
        · rw [htake, hgetD]
          exact List.Sublist.append hacc' (List.Sublist.refl _)
        · exact hacc'.trans (take_sublist_take event (Nat.le_succ j))
      · exact hacc'.trans (take_sublist_take event (Nat.le_succ j))
    rw [List.foldl_cons]
    refine ih (extremaStep event th acc j) (j + 1) hstep (List.Pairwise.sublist
      (List.sublist_cons_self j js) hpw) ?_ hjN
    intro j' hj'
    have hlt := (List.pairwise_cons.mp hpw).1 j' hj'
    exact ⟨hlt, (hbound j' (List.mem_cons_of_mem j hj')).2⟩

/-- `find_extrema` selects its output from the event's samples in their
original order: it is a sublist of the event (events with at least two
samples; the one-sample event duplicates its only sample instead). -/
theorem find_extrema_sublist (event : Event) (th : ℚ)
    (h2 : 2 ≤ event.length) :
    List.Sublist (find_extrema event th) event := by
  match event, h2 with
  | e0 :: rest, h2 =>
    have hlen : (e0 :: rest).length - 1 ≤ (e0 :: rest).length := Nat.sub_le _ _
    have hbody : List.Sublist
        ((List.range' 1 ((e0 :: rest).length - 2)).foldl
          (extremaStep (e0 :: rest) th) [e0])
        ((e0 :: rest).take ((e0 :: rest).length - 1)) := by
      refine foldl_extremaStep_sublist (e0 :: rest) th ((e0 :: rest).length - 1)
        hlen _ [e0] 1 ?_ (List.pairwise_lt_range' 1 _) ?_ (by omega)
      · simp
      · intro j hj
        have := List.mem_range'_1.mp hj
        omega
    have hsplit : (e0 :: rest) =
        (e0 :: rest).take ((e0 :: rest).length - 1) ++
          [(e0 :: rest).getLastD (0, 0)] := by
      conv_lhs => rw [← List.take_append_drop ((e0 :: rest).length - 1) (e0 :: rest)]
      rw [drop_length_sub_one (0, 0) (e0 :: rest) (by simp)]
    rw [show find_extrema (e0 :: rest) th =
      ((List.range' 1 ((e0 :: rest).length - 2)).foldl
        (extremaStep (e0 :: rest) th) [e0]) ++ [(e0 :: rest).getLastD (0, 0)]
      from rfl]
    conv_rhs => rw [hsplit]
    exact List.Sublist.append hbody (List.Sublist.refl _)

/-- On every nonempty event `find_extrema` returns at least the two endpoint
entries (shared by the endpoint and safety claims). -/
theorem find_extrema_length_ge_two (event : Event) (th : ℚ) (h : event ≠ []) :
    2 ≤ (find_extrema event th).length := by
  match event, h with
  | e0 :: rest, _ =>
    obtain ⟨t, ht⟩ := find_extrema_structure e0 rest th
    rw [ht]
    simp

/-- C3: for an event with at least two samples and any threshold `≥ 0`, the
extrema sequence starts with the event's first sample, ends with its last
sample, lists samples in their original order (it is a sublist of the event),
and a two-sample event yields exactly the two endpoints. -/
theorem claim_C3_endpoints (event : Event) (th : ℚ)
    (h2 : 2 ≤ event.length) (_hth : 0 ≤ th) :
    (find_extrema event th).headD (0, 0) = event.headD (0, 0) ∧
    (find_extrema event th).getLastD (0, 0) = event.getLastD (0, 0) ∧
    List.Sublist (find_extrema event th) event ∧
    (event.length = 2 → find_extrema event th = event) := by
  match event, h2 with
  | e0 :: rest, h2 =>
    obtain ⟨t, ht⟩ := find_extrema_structure e0 rest th
    refine ⟨by rw [ht]; rfl, ?_, find_extrema_sublist _ th h2, ?_⟩
    · rw [ht, show e0 :: (t ++ [(e0 :: rest).getLastD (0, 0)]) =
        (e0 :: t) ++ [(e0 :: rest).getLastD (0, 0)] from rfl,
        List.getLastD_concat]
    · intro hlen
      match rest, hlen with
      | [b], _ =>
        show (List.range' 1 ([e0, b].length - 2)).foldl
          (extremaStep [e0, b] th) [e0] ++ [([e0, b] : Event).getLastD (0, 0)]
            = [e0, b]
        simp [List.getLastD_cons]

/-- C10: on every nonempty event the extrema sequence has length at least 2
(a single-sample event duplicates its sample as first and last element), so
the consecutive-difference list used for `mean_extrema_diff` inside
`build_features` is never empty: the feature is never the mean of an empty
list. -/
theorem claim_C10_extrema_never_short (f : List ℚ → ℚ → List ℕ)
    (event : Event) (th : ℚ) (h : event ≠ []) :
    2 ≤ (find_extrema event th).length ∧
    (event.length = 1 →
      find_extrema event th = [event.headD (0, 0), event.headD (0, 0)]) ∧
    extremaDiffs (find_extrema event th) ≠ [] ∧
    (build_features f event th).mean_extrema_diff =
      npMean (extremaDiffs (find_extrema event th)) := by
  refine ⟨find_extrema_length_ge_two event th h, ?_, ?_, ?_⟩
  · intro hlen
    match event, hlen with
    | [x], _ =>
      show (List.range' 1 (([x] : Event).length - 2)).foldl
        (extremaStep [x] th) [x] ++ [([x] : Event).getLastD (0, 0)] = [x, x]
      simp [List.getLastD_cons]
  · have hlen := find_extrema_length_ge_two event th h
    have : (extremaDiffs (find_extrema event th)).length =
        (find_extrema event th).length - 1 := by
      simp [extremaDiffs, List.length_zip, List.length_tail]
    intro hnil
    rw [hnil] at this
    simp at this
    omega
  · have hpos : 0 < event.length := by
      cases event
      · exact absurd rfl h
      · simp
    rw [build_features, if_pos hpos]

/-- Witness for C3 at a three-sample event with threshold 0. -/
theorem claim_C3_endpoints_witness :
    2 ≤ ([((0:ℚ), (0:ℚ)), (1, 1), (2, 0)] : Event).length ∧ (0:ℚ) ≤ 0 ∧
    ((find_extrema [((0:ℚ), (0:ℚ)), (1, 1), (2, 0)] 0).headD (0, 0) =
      ([((0:ℚ), (0:ℚ)), (1, 1), (2, 0)] : Event).headD (0, 0) ∧
    (find_extrema [((0:ℚ), (0:ℚ)), (1, 1), (2, 0)] 0).getLastD (0, 0) =
      ([((0:ℚ), (0:ℚ)), (1, 1), (2, 0)] : Event).getLastD (0, 0) ∧
    List.Sublist (find_extrema [((0:ℚ), (0:ℚ)), (1, 1), (2, 0)] 0)
      [((0:ℚ), (0:ℚ)), (1, 1), (2, 0)] ∧
    (([((0:ℚ), (0:ℚ)), (1, 1), (2, 0)] : Event).length = 2 →
      find_extrema [((0:ℚ), (0:ℚ)), (1, 1), (2, 0)] 0 =
        [((0:ℚ), (0:ℚ)), (1, 1), (2, 0)])) :=
  ⟨by decide, by decide,
    claim_C3_endpoints [((0:ℚ), (0:ℚ)), (1, 1), (2, 0)] 0 (by decide) (by decide)⟩

/-- Witness for C10 at the one-sample event with threshold 0. -/
theorem claim_C10_extrema_never_short_witness :
    ([((0:ℚ), (0:ℚ))] : Event) ≠ [] ∧
    (2 ≤ (find_extrema [((0:ℚ), (0:ℚ))] 0).length ∧
    (([((0:ℚ), (0:ℚ))] : Event).length = 1 →
      find_extrema [((0:ℚ), (0:ℚ))] 0 =
        [([((0:ℚ), (0:ℚ))] : Event).headD (0, 0),
         ([((0:ℚ), (0:ℚ))] : Event).headD (0, 0)]) ∧
    extremaDiffs (find_extrema [((0:ℚ), (0:ℚ))] 0) ≠ [] ∧
    (build_features (fun _ _ => []) [((0:ℚ), (0:ℚ))] 0).mean_extrema_diff =
      npMean (extremaDiffs (find_extrema [((0:ℚ), (0:ℚ))] 0))) :=
  ⟨by decide,
    claim_C10_extrema_never_short (fun _ _ => []) [((0:ℚ), (0:ℚ))] 0 (by decide)⟩

/-- Summing the flattened extrema array adds the time column and the current
column. -/
theorem flattenPairs_sum (l : List Sample) :
    (flattenPairs l).sum = (l.map Prod.fst).sum + (l.map Prod.snd).sum := by
  induction l with
  | nil => simp [flattenPairs]
  | cons p l ih =>
    simp only [flattenPairs, List.flatMap_cons] at *
    simp [ih]
    ring

/-- The flattened extrema array has twice as many entries as the extrema
sequence. -/
theorem flattenPairs_length (l : List Sample) :
    (flattenPairs l).length = 2 * l.length := by
  induction l with
  | nil => simp [flattenPairs]
  | cons p l ih =>
    simp only [flattenPairs, List.flatMap_cons] at *
    simp [ih]
    omega

/-- The flattened extrema array is a permutation of "time column followed by
current column". -/
theorem flattenPairs_perm (l : List Sample) :
    (flattenPairs l).Perm (l.map Prod.fst ++ l.map Prod.snd) := by
  induction l with
  | nil => simp [flattenPairs]
  | cons p l ih =>
    simp only [flattenPairs, List.flatMap_cons, List.map_cons]
    refine List.Perm.trans ((ih.cons p.2).cons p.1) ?_
    exact List.Perm.cons p.1 List.perm_middle.symm

/-- `np.mean` is invariant under permutation of its input. -/
theorem npMean_congr_perm {l l' : List ℚ} (h : l.Perm l') :
    npMean l = npMean l' := by
  rw [npMean, npMean, h.sum_eq, h.length_eq]

/-- `np.std` is invariant under permutation of its input. -/
theorem npStd_congr_perm {l l' : List ℚ} (h : l.Perm l') : npStd l = npStd l' := by
  have hm : npMean l = npMean l' := npMean_congr_perm h
  unfold npStd
  rw [hm, npMean_congr_perm (h.map (fun x => (x - npMean l') ^ 2))]

/-- The consecutive-difference list has one entry fewer than the extrema
sequence. -/
theorem extremaDiffs_length (l : List Sample) :
    (extremaDiffs l).length = l.length - 1 := by
  simp [extremaDiffs, List.length_zip, List.length_tail]

/-- C8: on every non-empty window, `build_features` sets `num_extrema` to the
length of the extrema sequence, `mean_extrema` to the mean over all extremum
time and current values combined (both columns, not the current column
alone), `std_extrema` to the standard deviation over both columns combined,
and `mean_extrema_diff` to the mean of the absolute consecutive current
differences across the extrema. -/
theorem claim_C8_extrema_features (f : List ℚ → ℚ → List ℕ) (event : Event)
    (th : ℚ) (h : event ≠ []) :
    (build_features f event th).num_extrema = (find_extrema event th).length ∧
    (build_features f event th).mean_extrema =
      ((((find_extrema event th).map Prod.fst).sum +
        ((find_extrema event th).map Prod.snd).sum : ℚ) : ℝ) /
        (2 * (find_extrema event th).length) ∧
    (build_features f event th).std_extrema =
      npStd ((find_extrema event th).map Prod.fst ++
        (find_extrema event th).map Prod.snd) ∧
    (build_features f event th).mean_extrema_diff =
      (((extremaDiffs (find_extrema event th)).sum : ℚ) : ℝ) /
        ((find_extrema event th).length - 1) := by
  have hpos : 0 < event.length := List.length_pos.mpr h
  have h2 : 2 ≤ (find_extrema event th).length :=
    find_extrema_length_ge_two event th h
  refine ⟨?_, ?_, ?_, ?_⟩
  · rw [build_features, if_pos hpos]
  · rw [build_features, if_pos hpos]
    show ((npMean (flattenPairs (find_extrema event th)) : ℚ) : ℝ) = _
    rw [npMean, flattenPairs_sum, flattenPairs_length]
    push_cast
    ring
  · rw [build_features, if_pos hpos]
    show npStd (flattenPairs (find_extrema event th)) = _
    exact npStd_congr_perm (flattenPairs_perm _)
  · rw [build_features, if_pos hpos]
    show ((npMean (extremaDiffs (find_extrema event th)) : ℚ) : ℝ) = _
    rw [npMean, extremaDiffs_length]
    have h1 : 1 ≤ (find_extrema event th).length := le_trans (by norm_num) h2
    push_cast [Nat.cast_sub h1]
    ring

/-- Witness for C8 at the one-sample event with an empty peak detector. -/
theorem claim_C8_extrema_features_witness :
    ([((0:ℚ), (0:ℚ))] : Event) ≠ [] ∧
    ((build_features (fun _ _ => []) [((0:ℚ), (0:ℚ))] 0).num_extrema =
      (find_extrema [((0:ℚ), (0:ℚ))] 0).length ∧
    (build_features (fun _ _ => []) [((0:ℚ), (0:ℚ))] 0).mean_extrema =
      ((((find_extrema [((0:ℚ), (0:ℚ))] 0).map Prod.fst).sum +
        ((find_extrema [((0:ℚ), (0:ℚ))] 0).map Prod.snd).sum : ℚ) : ℝ) /
        (2 * (find_extrema [((0:ℚ), (0:ℚ))] 0).length) ∧
    (build_features (fun _ _ => []) [((0:ℚ), (0:ℚ))] 0).std_extrema =
      npStd ((find_extrema [((0:ℚ), (0:ℚ))] 0).map Prod.fst ++
        (find_extrema [((0:ℚ), (0:ℚ))] 0).map Prod.snd) ∧
    (build_features (fun _ _ => []) [((0:ℚ), (0:ℚ))] 0).mean_extrema_diff =
      (((extremaDiffs (find_extrema [((0:ℚ), (0:ℚ))] 0)).sum : ℚ) : ℝ) /
        ((find_extrema [((0:ℚ), (0:ℚ))] 0).length - 1)) :=
  ⟨by decide,
    claim_C8_extrema_features (fun _ _ => []) [((0:ℚ), (0:ℚ))] 0 (by decide)⟩

/-- C9: on every non-empty window, `build_features` calls the peak detector
with width `max(1, duration)` where `duration` is the last sample's time.
With `idx` the detected indices and `vals` their current values:
`num_peaks` counts the detected indices; if at least one peak was detected,
`mean_peaks` is the mean of the detected peak currents and `peak_1..peak_5`
read the descending sort of the detected currents (a permutation of them) at
positions 0..4, defaulting to 0 beyond its length; with no detected peak,
`mean_peaks` and `peak_1..peak_5` all stay 0. -/
theorem claim_C9_peak_features (f : List ℚ → ℚ → List ℕ) (event : Event)
    (th : ℚ) (idx : List ℕ) (vals : List ℚ) (h : event ≠ [])
    (hidx : idx = f (event.map Prod.snd) (max 1 (event.getLastD (0, 0)).1))
    (hvals : vals = idx.map (fun i => (event.getD i (0, 0)).2)) :
    (build_features f event th).duration = ((event.getLastD (0, 0)).1 : ℚ) ∧
    (build_features f event th).num_peaks = idx.length ∧
    (idx ≠ [] →
      (build_features f event th).mean_peaks = ((vals.sum : ℚ) : ℝ) / vals.length ∧
      (sortDesc vals).Perm vals ∧
      (sortDesc vals).Sorted (· ≥ ·) ∧
      (build_features f event th).peak_1 = (((sortDesc vals).getD 0 0 : ℚ) : ℝ) ∧
      (build_features f event th).peak_2 = (((sortDesc vals).getD 1 0 : ℚ) : ℝ) ∧
      (build_features f event th).peak_3 = (((sortDesc vals).getD 2 0 : ℚ) : ℝ) ∧
      (build_features f event th).peak_4 = (((sortDesc vals).getD 3 0 : ℚ) : ℝ) ∧
      (build_features f event th).peak_5 = (((sortDesc vals).getD 4 0 : ℚ) : ℝ)) ∧
    (idx = [] →
      (build_features f event th).mean_peaks = 0 ∧
      (build_features f event th).peak_1 = 0 ∧
      (build_features f event th).peak_2 = 0 ∧
      (build_features f event th).peak_3 = 0 ∧
      (build_features f event th).peak_4 = 0 ∧
      (build_features f event th).peak_5 = 0) := by
  have hpos : 0 < event.length := List.length_pos.mpr h
  subst hidx hvals
  refine ⟨by rw [build_features, if_pos hpos], by rw [build_features, if_pos hpos], ?_, ?_⟩
  · intro hne
    have hlen : 0 < (f (event.map Prod.snd) (max 1 (event.getLastD (0, 0)).1)).length :=
      List.length_pos.mpr hne
    refine ⟨?_, List.perm_insertionSort _ _, List.sorted_insertionSort _ _,
      ?_, ?_, ?_, ?_, ?_⟩
    · rw [build_features, if_pos hpos]
      show ((if _ then npMean (sortDesc _) else 0 : ℝ)) = _
      have hperm : (sortDesc ((f (event.map Prod.snd)
          (max 1 (event.getLastD (0, 0)).1)).map
            (fun i => (event.getD i (0, 0)).2))).Perm
          ((f (event.map Prod.snd) (max 1 (event.getLastD (0, 0)).1)).map
            (fun i => (event.getD i (0, 0)).2)) :=
        List.perm_insertionSort _ _
      rw [if_pos hlen, npMean_congr_perm hperm]
      rw [npMean]
      push_cast [List.length_map]
      ring
    all_goals
      rw [build_features, if_pos hpos]
      show ((if _ then _ else 0 : ℝ)) = _
      rw [if_pos hlen]
  · intro hnil
    have hlen : ¬ 0 < (f (event.map Prod.snd) (max 1 (event.getLastD (0, 0)).1)).length := by
      rw [hnil]; simp
    refine ⟨?_, ?_, ?_, ?_, ?_, ?_⟩
    all_goals
      rw [build_features, if_pos hpos]
      show ((if _ then _ else 0 : ℝ)) = _
      rw [if_neg hlen]

/-- Witness for C9 at a one-sample event whose detector reports index 0. -/
theorem claim_C9_peak_features_witness :
    ([((3:ℚ), (7:ℚ))] : Event) ≠ [] ∧
    ([0] : List ℕ) = (fun _ _ => [0])
      (([((3:ℚ), (7:ℚ))] : Event).map Prod.snd)
      (max 1 (([((3:ℚ), (7:ℚ))] : Event).getLastD (0, 0)).1) ∧
    ([(7:ℚ)] : List ℚ) = ([0] : List ℕ).map
      (fun i => (([((3:ℚ), (7:ℚ))] : Event).getD i (0, 0)).2) ∧
    ((build_features (fun _ _ => [0]) [((3:ℚ), (7:ℚ))] 0).duration =
      ((([((3:ℚ), (7:ℚ))] : Event).getLastD (0, 0)).1 : ℚ) ∧
    (build_features (fun _ _ => [0]) [((3:ℚ), (7:ℚ))] 0).num_peaks =
      ([0] : List ℕ).length ∧
    (([0] : List ℕ) ≠ [] →
      (build_features (fun _ _ => [0]) [((3:ℚ), (7:ℚ))] 0).mean_peaks =
        ((([(7:ℚ)] : List ℚ).sum : ℚ) : ℝ) / ([(7:ℚ)] : List ℚ).length ∧
      (sortDesc [(7:ℚ)]).Perm [(7:ℚ)] ∧
      (sortDesc [(7:ℚ)]).Sorted (· ≥ ·) ∧
      (build_features (fun _ _ => [0]) [((3:ℚ), (7:ℚ))] 0).peak_1 =
        (((sortDesc [(7:ℚ)]).getD 0 0 : ℚ) : ℝ) ∧
      (build_features (fun _ _ => [0]) [((3:ℚ), (7:ℚ))] 0).peak_2 =
        (((sortDesc [(7:ℚ)]).getD 1 0 : ℚ) : ℝ) ∧
      (build_features (fun _ _ => [0]) [((3:ℚ), (7:ℚ))] 0).peak_3 =
        (((sortDesc [(7:ℚ)]).getD 2 0 : ℚ) : ℝ) ∧
      (build_features (fun _ _ => [0]) [((3:ℚ), (7:ℚ))] 0).peak_4 =
        (((sortDesc [(7:ℚ)]).getD 3 0 : ℚ) : ℝ) ∧
      (build_features (fun _ _ => [0]) [((3:ℚ), (7:ℚ))] 0).peak_5 =
        (((sortDesc [(7:ℚ)]).getD 4 0 : ℚ) : ℝ)) ∧
    (([0] : List ℕ) = [] →
      (build_features (fun _ _ => [0]) [((3:ℚ), (7:ℚ))] 0).mean_peaks = 0 ∧
      (build_features (fun _ _ => [0]) [((3:ℚ), (7:ℚ))] 0).peak_1 = 0 ∧
      (build_features (fun _ _ => [0]) [((3:ℚ), (7:ℚ))] 0).peak_2 = 0 ∧
      (build_features (fun _ _ => [0]) [((3:ℚ), (7:ℚ))] 0).peak_3 = 0 ∧
      (build_features (fun _ _ => [0]) [((3:ℚ), (7:ℚ))] 0).peak_4 = 0 ∧
      (build_features (fun _ _ => [0]) [((3:ℚ), (7:ℚ))] 0).peak_5 = 0)) :=
  ⟨by decide, by decide, by decide,
    claim_C9_peak_features (fun _ _ => [0]) [((3:ℚ), (7:ℚ))] 0 [0] [(7:ℚ)]
      (by decide) (by decide) (by decide)⟩

/-- Counterexample to C4 as stated: on `cexEvent`, the smaller threshold 20
yields a strictly shorter extrema sequence (3) than the larger threshold 30
does (4): the acceptance test compares against the last accepted extremum, so
a small threshold can accept an early sample that then shadows later
candidates which a larger threshold would have accepted. -/
theorem claim_C4_counterexample :
    2 ≤ cexEvent.length ∧ (0:ℚ) ≤ 20 ∧ (0:ℚ) ≤ 30 ∧ (20:ℚ) < 30 ∧
    (find_extrema cexEvent 20).length < (find_extrema cexEvent 30).length := by
  refine ⟨by decide, by decide, by decide, by decide, ?_⟩
  norm_num [cexEvent, find_extrema, extremaStep, List.range', List.getD,
    List.getLastD]

/-- Invariant carried through the `find_extrema` loop for two thresholds
`a ≤ b - a` (i.e. `2a ≤ b`): the large-threshold run never holds more extrema
than the small-threshold run, and when the counts tie, the last accepted
currents differ by at most `b - a`. -/
theorem extrema_count_antitone_aux (event : Event) (a b : ℚ)
    (ha : 0 ≤ a) (hab : 2 * a ≤ b) :
    ∀ (js : List ℕ) (acc₁ acc₂ : List Sample),
      acc₂.length ≤ acc₁.length →
      (acc₁.length = acc₂.length →
        |(acc₁.getLastD (0, 0)).2 - (acc₂.getLastD (0, 0)).2| ≤ b - a) →
      (js.foldl (extremaStep event b) acc₂).length ≤
        (js.foldl (extremaStep event a) acc₁).length := by
  intro js
  induction js with
  | nil => intro acc₁ acc₂ hlen _; exact hlen
  | cons j js ih =>
    intro acc₁ acc₂ hlen hlast
    rw [List.foldl_cons, List.foldl_cons]
    by_cases hcand : 0 ≤ ((event.getD j (0, 0)).2 - (event.getD (j - 1) (0, 0)).2) *
        ((event.getD j (0, 0)).2 - (event.getD (j + 1) (0, 0)).2)
    · by_cases h₁ : a < |(event.getD j (0, 0)).2 - (acc₁.getLastD (0, 0)).2|
      · by_cases h₂ : b < |(event.getD j (0, 0)).2 - (acc₂.getLastD (0, 0)).2|
        · have e₁ : extremaStep event a acc₁ j = acc₁ ++ [event.getD j (0, 0)] := by
            dsimp only [extremaStep]; rw [if_pos hcand, if_pos h₁]
          have e₂ : extremaStep event b acc₂ j = acc₂ ++ [event.getD j (0, 0)] := by
            dsimp only [extremaStep]; rw [if_pos hcand, if_pos h₂]
          rw [e₁, e₂]
          refine ih _ _ (by simp [List.length_append]; omega) ?_
          intro _
          rw [List.getLastD_concat, List.getLastD_concat]
          simp
          linarith
        · have e₁ : extremaStep event a acc₁ j = acc₁ ++ [event.getD j (0, 0)] := by
            dsimp only [extremaStep]; rw [if_pos hcand, if_pos h₁]
          have e₂ : extremaStep event b acc₂ j = acc₂ := by
            dsimp only [extremaStep]; rw [if_pos hcand, if_neg h₂]
          rw [e₁, e₂]
          refine ih _ _ (by simp [List.length_append]; omega) ?_
          intro heq
          exfalso
          simp [List.length_append] at heq
          omega
      · by_cases h₂ : b < |(event.getD j (0, 0)).2 - (acc₂.getLastD (0, 0)).2|
        · have e₁ : extremaStep event a acc₁ j = acc₁ := by
            dsimp only [extremaStep]; rw [if_pos hcand, if_neg h₁]
          have e₂ : extremaStep event b acc₂ j = acc₂ ++ [event.getD j (0, 0)] := by
            dsimp only [extremaStep]; rw [if_pos hcand, if_pos h₂]
          rw [e₁, e₂]
          have hstrict : acc₂.length < acc₁.length := by
            rcases lt_or_eq_of_le hlen with hlt | heq
            · exact hlt
            · exfalso
              have hl := hlast heq.symm
              have hn₁ := not_lt.mp h₁
              have htri : |(event.getD j (0, 0)).2 - (acc₂.getLastD (0, 0)).2| ≤
                  |(event.getD j (0, 0)).2 - (acc₁.getLastD (0, 0)).2| +
                  |(acc₁.getLastD (0, 0)).2 - (acc₂.getLastD (0, 0)).2| := by
                rw [show (event.getD j (0, 0)).2 - (acc₂.getLastD (0, 0)).2 =
                  ((event.getD j (0, 0)).2 - (acc₁.getLastD (0, 0)).2) +
                  ((acc₁.getLastD (0, 0)).2 - (acc₂.getLastD (0, 0)).2) by ring]
                exact abs_add _ _
              linarith
          refine ih _ _ (by simp [List.length_append]; omega) ?_
          intro _
          rw [List.getLastD_concat]
          have hn₁ := not_lt.mp h₁
          rw [abs_sub_comm] at hn₁
          linarith
        · have e₁ : extremaStep event a acc₁ j = acc₁ := by
            dsimp only [extremaStep]; rw [if_pos hcand, if_neg h₁]
          have e₂ : extremaStep event b acc₂ j = acc₂ := by
            dsimp only [extremaStep]; rw [if_pos hcand, if_neg h₂]
          rw [e₁, e₂]
          exact ih _ _ hlen hlast
    · have e₁ : extremaStep event a acc₁ j = acc₁ := by
        dsimp only [extremaStep]; rw [if_neg hcand]
      have e₂ : extremaStep event b acc₂ j = acc₂ := by
        dsimp only [extremaStep]; rw [if_neg hcand]
      rw [e₁, e₂]
      exact ih _ _ hlen hlast

/-- C4 amended: the monotone threshold property holds once the larger
threshold is at least twice the smaller one: for `0 ≤ a` and `2a ≤ b`,
`find_extrema` with threshold `a` returns at least as many extrema as with
threshold `b`.  (For merely `a < b` the property fails, see the
counterexample.) -/
theorem claim_C4_amended_monotone (event : Event) (a b : ℚ)
    (h2 : 2 ≤ event.length) (ha : 0 ≤ a) (hab : 2 * a ≤ b) :
    (find_extrema event b).length ≤ (find_extrema event a).length := by
  match event, h2 with
  | e0 :: rest, _ =>
    have key := extrema_count_antitone_aux (e0 :: rest) a b ha hab
      (List.range' 1 ((e0 :: rest).length - 2)) [e0] [e0] (le_refl _)
      (fun _ => by simp; linarith)
    show ((List.range' 1 ((e0 :: rest).length - 2)).foldl
        (extremaStep (e0 :: rest) b) [e0] ++ [(e0 :: rest).getLastD (0, 0)]).length ≤
      ((List.range' 1 ((e0 :: rest).length - 2)).foldl
        (extremaStep (e0 :: rest) a) [e0] ++ [(e0 :: rest).getLastD (0, 0)]).length
    simp only [List.length_append]
    omega

/-- Witness for the amended C4 at a two-sample event with both thresholds 0. -/
theorem claim_C4_amended_monotone_witness :
    2 ≤ ([((0:ℚ), (0:ℚ)), (1, 1)] : Event).length ∧ (0:ℚ) ≤ 0 ∧
    2 * (0:ℚ) ≤ 0 ∧
    (find_extrema [((0:ℚ), (0:ℚ)), (1, 1)] 0).length ≤
      (find_extrema [((0:ℚ), (0:ℚ)), (1, 1)] 0).length :=
  ⟨by decide, by decide, by simp,
    claim_C4_amended_monotone [((0:ℚ), (0:ℚ)), (1, 1)] 0 0 (by decide)
      (by decide) (by simp)⟩

/-- A 60-sample event: it survives the duration filter. -/
def okEvent : Event := (List.range 60).map (fun i => ((i : ℚ), 0))

/-- A 10-sample event: the duration filter drops it. -/
def shortEvent : Event := (List.range 10).map (fun i => ((i : ℚ), 0))

/-- The identity permutation oracle (permutation = `range n` for every
class). -/
def idPerm : ℕ → ℕ → List ℕ := fun _ n => List.range n

/-- Counterexample to C7 as stated: with class 0 = one 60-sample event and
class 1 = one 10-sample event, class 1 has no events remaining after
balancing and filtering (`keepNormal` drops its only event), yet `preprocess`
does not fail: it returns a dataset whose label list is `[0]` — a partial
dataset that silently omits class 1. -/
theorem claim_C7_counterexample :
    keepNormal [shortEvent] = [] ∧
    preprocess (fun _ _ => []) idPerm [[okEvent], [shortEvent]] (some 3) none 0 =
      .ok ⟨[process_event (fun _ _ => []) okEvent 3 none 0], [0]⟩ :=
  ⟨rfl, rfl⟩

/-- C7 amended: with a valid configuration, preparation fails when the event
collections list is empty (zero classes), and when *no* events at all remain
after balancing and filtering (in the source, `min()` respectively `np.max`
of an empty sequence raise); but a class that is merely individually empty
while others retain events raises nothing — the returned dataset simply
omits it (see the counterexample). -/
theorem claim_C7_amended_empty_errors (f : List ℚ → ℚ → List ℕ)
    (perm : ℕ → ℕ → List ℕ) (ts ss : Option ℕ) (th : ℚ)
    (hcfg : (pyFalsy ts && pyFalsy ss) = false) :
    (preprocess f perm [] ts ss th = .error .emptyCollections) ∧
    (∀ raw : List (List Event), raw ≠ [] →
      ((balanceClasses perm raw (pyMinList (raw.map List.length))).map
        keepNormal).flatten = [] →
      preprocess f perm raw ts ss th = .error .emptyFiltered) := by
  constructor
  · simp [preprocess, hcfg]
  · intro raw hne hempty
    simp [preprocess, hcfg, List.isEmpty_iff, hne, hempty]

/-- Witness for the amended C7 with `timesteps = 3` supplied. -/
theorem claim_C7_amended_empty_errors_witness :
    (pyFalsy (some 3) && pyFalsy none) = false ∧
    ((preprocess (fun _ _ => []) idPerm [] (some 3) none 0 =
      .error .emptyCollections) ∧
    (∀ raw : List (List Event), raw ≠ [] →
      ((balanceClasses idPerm raw (pyMinList (raw.map List.length))).map
        keepNormal).flatten = [] →
      preprocess (fun _ _ => []) idPerm raw (some 3) none 0 =
        .error .emptyFiltered)) :=
  ⟨by decide,
    claim_C7_amended_empty_errors (fun _ _ => []) idPerm (some 3) none 0
      (by decide)⟩
